import Mathlib

/-!
# Verification of the Solana wallet-tracker core (`src/main.py`)

Shallow embedding of the state and the operations of `main.py`:

* Python `dict`s are embedded as association lists (`List (κ × α)`) with
  replace-in-place update semantics (`insertKey`) and first-match lookup
  (`lookupKey`), which matches CPython's insertion-ordered dicts with
  unique keys.
* Money amounts (`uiAmount`, lamport balances scaled by `10^9`) are
  embedded as exact rationals `ℚ`; the source uses binary floats, and the
  idealized exact-arithmetic semantics is taken as the meaning of the
  numeric comparisons.
* The network is a parameter: each function that consumes an RPC result in
  the source takes that result as an explicit argument.
-/

namespace SolBot

/-- Association-list lookup, first match wins (Python `d.get(k)` / `d[k]`). -/
def lookupKey {κ α : Type} [DecidableEq κ] : List (κ × α) → κ → Option α
  | [], _ => none
  | (k0, v) :: rest, k => if k0 = k then some v else lookupKey rest k

/-- Association-list update (Python `d[k] = v`): replaces the value in place
if the key is present, otherwise appends at the end (insertion order). -/
def insertKey {κ α : Type} [DecidableEq κ] : List (κ × α) → κ → α → List (κ × α)
  | [], k, v => [(k, v)]
  | (k0, v0) :: rest, k, v =>
      if k0 = k then (k, v) :: rest else (k0, v0) :: insertKey rest k v

/-- Association-list removal (Python `del d[k]`), removing the first match. -/
def eraseKey {κ α : Type} [DecidableEq κ] : List (κ × α) → κ → List (κ × α)
  | [], _ => []
  | (k0, v0) :: rest, k => if k0 = k then rest else (k0, v0) :: eraseKey rest k

/-- The keys of an association list, in order. -/
def keysOf {κ α : Type} (d : List (κ × α)) : List κ := d.map Prod.fst

/-- Python `s[:4] + "..." + s[-4:]`, the shortened-address display form used
both as the default wallet name in `add_wallet` and as the fallback token
symbol in `get_token_metadata`. -/
def shortenAddr (s : String) : String :=
  String.mk (s.data.take 4) ++ "..." ++ String.mk (s.data.drop (s.data.length - 4))

/-! ## WatchState: per-user tracking data (`user_data` in `main.py`)

`user_data` maps a Telegram user id to
`{'wallets': {address -> name}, 'last_signatures': {address -> signature}}`. -/

/-- One user's entry in `user_data`. -/
structure UserData where
  wallets : List (String × String)
  last_signatures : List (String × String)
deriving DecidableEq

/-- The whole in-memory `user_data` map: user id -> per-user data. -/
abbrev BotState := List (Int × UserData)

/-! ## The monitor loop's per-wallet change-detection step

`monitor_wallets` (src/main.py 759-809), per tracked wallet, after a
successful fetch of the latest signature:

    last_known_signature = data['last_signatures'].get(wallet_address)
    if last_known_signature and latest_signature != last_known_signature:
        data['last_signatures'][wallet_address] = latest_signature
        ... compose notification ...
        try: await application.bot.send_message(...)
        except ...

The step below returns the updated `UserData` together with the signature
carried by the notification that is composed and handed to the delivery
collaborator (`none` when no notification is produced).  The marker write
happens before the `send_message` call, and `send_message` sits inside a
`try/except` that does not touch `user_data`, so the delivery outcome is
not an input of the state transition. -/
def monitor_step (data : UserData) (wallet_address latest_signature : String) :
    UserData × Option String :=
  match lookupKey data.last_signatures wallet_address with
  | none => (data, none)
  | some last_known =>
      if last_known ≠ "" ∧ latest_signature ≠ last_known then
        ({ data with
            last_signatures :=
              insertKey data.last_signatures wallet_address latest_signature },
          some latest_signature)
      else (data, none)

/-! ## TransferInference (`parse_token_transfers`, src/main.py 318-408) -/

/-- One entry of `meta.preTokenBalances` / `meta.postTokenBalances`.
`owner` and `mint` are `none` when the field is absent (Python
`balance.get(...)` returning `None`); an absent or `None` `uiAmount`
(Python `.get('uiAmount', 0) or 0`) is `none` and read as `0`. -/
structure TokenBalance where
  owner : Option String
  mint : Option String
  uiAmount : Option ℚ
  decimals : ℕ
deriving DecidableEq

/-- The value stored in `pre_map` / `post_map` for a `"owner_mint"` key. -/
structure BalEntry where
  amount : ℚ
  mint : String
  decimals : ℕ
deriving DecidableEq

/-- The `meta` object of a transaction: token-balance snapshots and the
flat lamport balance arrays. -/
structure TxMeta where
  preTokenBalances : List TokenBalance
  postTokenBalances : List TokenBalance
  preBalances : List ℤ
  postBalances : List ℤ
deriving DecidableEq

/-- An entry of `transaction.message.accountKeys`: either a plain string or
a structured object whose `pubkey` field may be absent. -/
inductive AccountKey where
  | str (s : String)
  | obj (pubkey : Option String)
deriving DecidableEq

/-- A transaction record as consumed by `parse_token_transfers`.  `meta` is
`none` when the transaction carries no balance-change metadata (absent,
`None` or empty `meta`, all falsy in `if not tx_data.get('meta')`). -/
structure TxData where
  meta : Option TxMeta
  accountKeys : List AccountKey
deriving DecidableEq

/-- A transfer dict appended to `transfers`.  `typ` embeds the Python key
`'type'` (values `"BUY"`/`"SELL"`/`"RECEIVE"`/`"SEND"`); token transfers
carry no `'symbol'`/`'is_sol'` keys, embedded as `none`/`false`. -/
structure Transfer where
  mint : String
  change : ℚ
  typ : String
  amount : ℚ
  symbol : Option String
  is_sol : Bool
deriving DecidableEq

/-- Python `key.startswith(pre)` on strings, as a list-level prefix test. -/
def strStartsWith (s pre : String) : Bool :=
  List.isPrefixOf pre.data s.data

/-- One iteration of the map-building loop: if `owner` and `mint` are both
truthy (present and nonempty), store amount/mint/decimals under the key
`f"{owner}_{mint}"`; otherwise leave the map unchanged. -/
def insertBalance (m : List (String × BalEntry)) (b : TokenBalance) :
    List (String × BalEntry) :=
  match b.owner, b.mint with
  | some owner, some mint =>
      if owner ≠ "" ∧ mint ≠ "" then
        insertKey m (owner ++ "_" ++ mint) ⟨(b.uiAmount.getD 0), mint, b.decimals⟩
      else m
  | _, _ => m

/-- Build `pre_map`/`post_map` from a token-balance snapshot. -/
def buildBalanceMap (balances : List TokenBalance) : List (String × BalEntry) :=
  balances.foldl insertBalance []

/-- `set(pre_map.keys()) | set(post_map.keys())`: the pre keys followed by
the post keys not already present (a set; iteration order carries no
meaning in the source either). -/
def unionKeys (pre post : List (String × BalEntry)) : List String :=
  keysOf pre ++ (keysOf post).filter (fun k => ¬ k ∈ keysOf pre)

/-- `post_map.get(key, pre_map.get(key, {})).get('mint')`. -/
def mintFor (pre post : List (String × BalEntry)) (key : String) : Option String :=
  match lookupKey post key with
  | some e => some e.mint
  | none => (lookupKey pre key).map BalEntry.mint

/-- The loop body over `all_keys`: skip keys not starting with the wallet
address, skip unchanged amounts, then append a BUY/SELL transfer when the
mint is truthy and the change nonzero. -/
def eventForKey (pre post : List (String × BalEntry)) (wallet_address key : String) :
    Option Transfer :=
  if ¬ strStartsWith key wallet_address then none
  else
    let pre_amount := ((lookupKey pre key).map BalEntry.amount).getD 0
    let post_amount := ((lookupKey post key).map BalEntry.amount).getD 0
    if pre_amount = post_amount then none
    else
      let change := post_amount - pre_amount
      match mintFor pre post key with
      | some mint =>
          if mint ≠ "" ∧ change ≠ 0 then
            some ⟨mint, change, if change > 0 then "BUY" else "SELL", |change|, none, false⟩
          else none
      | none => none

/-- The fungible-token section of `parse_token_transfers`. -/
def token_events (meta : TxMeta) (wallet_address : String) : List Transfer :=
  let pre_map := buildBalanceMap meta.preTokenBalances
  let post_map := buildBalanceMap meta.postTokenBalances
  (unionKeys pre_map post_map).filterMap (eventForKey pre_map post_map wallet_address)

/-- `addr = key if isinstance(key, str) else key.get('pubkey')`. -/
def addrOf : AccountKey → Option String
  | .str s => some s
  | .obj p => p

/-- The index of the first account key equal to the wallet (the `for`/`break`
over `enumerate(account_keys)`). -/
def findKeyIdx (keys : List AccountKey) (wallet_address : String) : Option ℕ :=
  match keys with
  | [] => none
  | k :: rest =>
      if addrOf k = some wallet_address then some 0
      else (findKeyIdx rest wallet_address).map (· + 1)

/-- The native-SOL section of `parse_token_transfers`: at the wallet's
account index, lamports scaled by `10^9`, dust filter `abs(change) > 0.001`,
direction RECEIVE/SEND by sign. -/
def sol_events (meta : TxMeta) (keys : List AccountKey) (wallet_address : String) :
    List Transfer :=
  match findKeyIdx keys wallet_address with
  | none => []
  | some i =>
      match meta.preBalances.get? i, meta.postBalances.get? i with
      | some pre, some post =>
          let pre_balance : ℚ := (pre : ℚ) / 1000000000
          let post_balance : ℚ := (post : ℚ) / 1000000000
          let sol_change := post_balance - pre_balance
          if |sol_change| > 1 / 1000 then
            [⟨"SOL", sol_change, if sol_change > 0 then "RECEIVE" else "SEND",
              |sol_change|, some "SOL", true⟩]
          else []
      | _, _ => []

/-- `parse_token_transfers(tx_data, wallet_address)`: empty on missing
balance-change metadata, otherwise the token transfers followed by the
native-SOL transfer (if any). -/
def parse_token_transfers (tx : TxData) (wallet_address : String) : List Transfer :=
  match tx.meta with
  | none => []
  | some meta => token_events meta wallet_address ++ sol_events meta tx.accountKeys wallet_address

/-- The subject's native pre/post delta in whole SOL units, when defined:
the wallet occurs in `accountKeys` and its index is within both lamport
arrays.  This is the quantity the dust threshold of `sol_events` tests. -/
def native_delta (tx : TxData) (wallet_address : String) : Option ℚ :=
  match tx.meta with
  | none => none
  | some meta =>
      match findKeyIdx tx.accountKeys wallet_address with
      | none => none
      | some i =>
          match meta.preBalances.get? i, meta.postBalances.get? i with
          | some pre, some post =>
              some ((post : ℚ) / 1000000000 - (pre : ℚ) / 1000000000)
          | _, _ => none

/-- The net amount change of a `"owner_mint"` key between the two maps
(`post - pre`, an absent side read as 0). -/
def keyDelta (pre post : List (String × BalEntry)) (key : String) : ℚ :=
  ((lookupKey post key).map BalEntry.amount).getD 0 -
    ((lookupKey pre key).map BalEntry.amount).getD 0

/-- The mint recorded for a key (post side preferred, as in the source). -/
def keyMint (pre post : List (String × BalEntry)) (key : String) : String :=
  (mintFor pre post key).getD ""

/-! ## WatchState mutations (`add_wallet` 443-501, `remove_wallet` 538-572)

The RPC results each handler consumes are passed as explicit arguments:
`balance_result` is the `get_wallet_balance` reply used for the liveness
check, `tx_result` the `get_recent_transactions(wallet_address, 1)` reply
used to bootstrap the baseline signature. -/

/-- `get_wallet_balance` reply, reduced to the fields `add_wallet` reads. -/
structure BalanceResult where
  success : Bool
deriving DecidableEq

/-- `get_recent_transactions` reply: success flag and the list of returned
signatures (`tx['signature']` of each entry). -/
structure TxFetchResult where
  success : Bool
  transactions : List String
deriving DecidableEq

/-- The user-visible rejection cases of `add_wallet`. -/
inductive AddError where
  | invalidAddress
  | alreadyTracked
  | verifyFailed
deriving DecidableEq

/-- The user-visible rejection case of `remove_wallet`. -/
inductive RemoveError where
  | notTracked
deriving DecidableEq

/-- Result of a handler: the `user_data` map after the call together with
the error reported to the user (`none` on success). -/
structure AddOutcome where
  state : BotState
  error : Option AddError
deriving DecidableEq

/-- Result of `remove_wallet`. -/
structure RemoveOutcome where
  state : BotState
  error : Option RemoveError
deriving DecidableEq

/-- `add_wallet(update, context)` for a supplied address (already stripped;
the no-argument usage branch is outside this model).  Mirrors the source
order: length validation, ensure the user's entry exists, duplicate check,
liveness check, default name, record wallet, bootstrap baseline signature. -/
def add_wallet (st : BotState) (user_id : Int) (wallet_address : String)
    (wallet_name : Option String) (balance_result : BalanceResult)
    (tx_result : TxFetchResult) : AddOutcome :=
  if wallet_address.length < 32 ∨ wallet_address.length > 44 then
    ⟨st, some .invalidAddress⟩
  else
    let st1 := match lookupKey st user_id with
      | none => insertKey st user_id ⟨[], []⟩
      | some _ => st
    let data := (lookupKey st1 user_id).getD ⟨[], []⟩
    if (lookupKey data.wallets wallet_address).isSome then
      ⟨st1, some .alreadyTracked⟩
    else if ¬ balance_result.success then
      ⟨st1, some .verifyFailed⟩
    else
      let name := match wallet_name with
        | some nm => if nm = "" then shortenAddr wallet_address else nm
        | none => shortenAddr wallet_address
      let wallets1 := insertKey data.wallets wallet_address name
      let sigs1 := match tx_result.success, tx_result.transactions with
        | true, sig :: _ => insertKey data.last_signatures wallet_address sig
        | _, _ => data.last_signatures
      ⟨insertKey st1 user_id ⟨wallets1, sigs1⟩, none⟩

/-- `remove_wallet(update, context)` for a supplied address. -/
def remove_wallet (st : BotState) (user_id : Int) (wallet_address : String) :
    RemoveOutcome :=
  match lookupKey st user_id with
  | none => ⟨st, some .notTracked⟩
  | some data =>
      if (lookupKey data.wallets wallet_address).isSome then
        let wallets1 := eraseKey data.wallets wallet_address
        let sigs1 :=
          if (lookupKey data.last_signatures wallet_address).isSome then
            eraseKey data.last_signatures wallet_address
          else data.last_signatures
        ⟨insertKey st user_id ⟨wallets1, sigs1⟩, none⟩
      else ⟨st, some .notTracked⟩

/-! ## TokenRegistry (`get_token_metadata`, src/main.py 100-316) -/

/-- A cached or returned metadata record. -/
structure TokenMeta where
  success : Bool
  symbol : String
  name : String
  decimals : ℕ
deriving DecidableEq

/-- `token_metadata_cache`. -/
abbrev MetaCache := List (String × TokenMeta)

/-- The wrapped-SOL mint special-cased in `get_token_metadata`. -/
def NATIVE_MINT : String := "So11111111111111111111111111111111111111112"

/-- Outcome of one resolution: the returned record, the cache afterwards,
and how many source lookups were attempted during the call. -/
structure ResolveOutcome where
  meta : TokenMeta
  cache : MetaCache
  attempts : ℕ
deriving DecidableEq

/-- Walk the ordered source chain (methods 1-7 of the source, each lookup
given as `some` record on success, `none` on failure/no-symbol), counting
attempts, stopping at the first success. -/
def resolveChain : List (Option TokenMeta) → ℕ → Option TokenMeta × ℕ
  | [], n => (none, n)
  | some m :: _, n => (some m, n + 1)
  | none :: rest, n => resolveChain rest (n + 1)

/-- `get_token_metadata(mint_address)`: cache hit first (no lookups), then
the native-SOL special case, then the source chain, and finally the
complete fallback `success=False` record with the shortened-address
symbol; every computed record is written to the cache before returning. -/
def get_token_metadata (cache : MetaCache) (mint_address : String)
    (sources : List (Option TokenMeta)) : ResolveOutcome :=
  match lookupKey cache mint_address with
  | some r => ⟨r, cache, 0⟩
  | none =>
      if mint_address = NATIVE_MINT then
        let r : TokenMeta := ⟨true, "SOL", "Solana", 9⟩
        ⟨r, insertKey cache mint_address r, 0⟩
      else
        match resolveChain sources 0 with
        | (some r, n) => ⟨r, insertKey cache mint_address r, n⟩
        | (none, n) =>
            let r : TokenMeta :=
              ⟨false, shortenAddr mint_address, "Unknown Token", 9⟩
            ⟨r, insertKey cache mint_address r, n⟩

/-! ## Process-level state and durable storage

`main.py` declares `user_data = {}` at module load (line 22-23, comment
"Store tracked wallets in memory") and contains no file read or write for
it: no handler and no loop iteration touches durable storage.  To settle
the persistence claim we pair the in-memory map with the contents of a
durable state file; the program never reads or writes that component. -/

/-- Whole-process state: the in-memory `user_data` and the contents of a
durable state file (`none` = no file). -/
structure ProcState where
  user_data : BotState
  storage : Option String
deriving DecidableEq

/-- Process start: `user_data = {}` executes unconditionally; whatever the
durable file holds is never read. -/
def startup (storage : Option String) : ProcState := ⟨[], storage⟩

/-- `add_wallet` lifted to the process state: it only mutates `user_data`. -/
def add_wallet_proc (p : ProcState) (user_id : Int) (wallet_address : String)
    (wallet_name : Option String) (balance_result : BalanceResult)
    (tx_result : TxFetchResult) : ProcState × Option AddError :=
  let out := add_wallet p.user_data user_id wallet_address wallet_name balance_result tx_result
  (⟨out.state, p.storage⟩, out.error)

/-- `remove_wallet` lifted to the process state. -/
def remove_wallet_proc (p : ProcState) (user_id : Int) (wallet_address : String) :
    ProcState × Option RemoveError :=
  let out := remove_wallet p.user_data user_id wallet_address
  (⟨out.state, p.storage⟩, out.error)

/-- The monitor step lifted to the process state, for one user's data entry. -/
def monitor_step_proc (p : ProcState) (user_id : Int) (wallet_address latest_signature : String) :
    ProcState × Option String :=
  match lookupKey p.user_data user_id with
  | none => (p, none)
  | some data =>
      let out := monitor_step data wallet_address latest_signature
      (⟨insertKey p.user_data user_id out.1, p.storage⟩, out.2)

/-! ## Concrete inputs used in counterexamples and witnesses -/

/-- A 40-character address (valid length for `add_wallet`). -/
def addrW : String := "WalletAddressWalletAddressWalletAddress1"

/-- A second 40-character address. -/
def addrV : String := "VaultAddressVaultAddressVaultVaultVault2"

/-- A transaction whose only effect on subject `"W"` is a native delta of
exactly `-0.001` SOL (lamports 1000000 -> 0): the dust boundary. -/
def txDustBoundary : TxData :=
  ⟨some ⟨[], [], [1000000], [0]⟩, [.str "W"]⟩

/-- A transaction whose native delta for subject `"W"` is `-0.002` SOL. -/
def txAboveDust : TxData :=
  ⟨some ⟨[], [], [2000000], [0]⟩, [.str "W"]⟩

/-- Balance metadata whose only owner is `"WX"`: not equal to the subject
`"W"`, but the combined key `"WX_M"` starts with `"W"`. -/
def metaOwnerWX : TxMeta :=
  ⟨[⟨some "WX", some "M", some 1, 9⟩], [⟨some "WX", some "M", some 2, 9⟩], [], []⟩

/-- The transaction carrying `metaOwnerWX`. -/
def txOwnerWX : TxData := ⟨some metaOwnerWX, []⟩

/-- A user entry tracking wallet `"w1"` with no stored signature. -/
def userNoBaseline : UserData := ⟨[("w1", "n1")], []⟩

/-- A user entry whose stored signature for wallet `"w1"` is `"sigA"`. -/
def userWithBaseline : UserData := ⟨[("w1", "n1")], [("w1", "sigA")]⟩

/-- A fresh process state with no durable state file. -/
def proc0 : ProcState := ⟨[], none⟩

/-! # Theorems -/

/-! ## Association-list lemmas -/

theorem lookupKey_insertKey {κ α : Type} [DecidableEq κ] (d : List (κ × α)) (k k2 : κ) (v : α) :
    lookupKey (insertKey d k v) k2 = if k2 = k then some v else lookupKey d k2 := by
  induction d with
  | nil =>
      by_cases h : k2 = k <;> simp_all [insertKey, lookupKey] <;> exact fun hh => h hh.symm
  | cons hd tl ih =>
      obtain ⟨k0, v0⟩ := hd
      by_cases h0 : k0 = k <;> by_cases h1 : k2 = k <;>
        simp_all [insertKey, lookupKey] <;>
        first
        | exact fun hh => h1 hh.symm
        | rw [if_neg (fun hh : k = k2 => h1 hh.symm), if_neg (fun hh : k = k2 => h1 hh.symm)]

theorem lookupKey_insertKey_self {κ α : Type} [DecidableEq κ] (d : List (κ × α)) (k : κ) (v : α) :
    lookupKey (insertKey d k v) k = some v := by
  simp [lookupKey_insertKey]

/-! ## Monitor-loop change-detection lemmas -/

theorem monitor_step_none_of_no_marker (data : UserData) (w m : String)
    (h : lookupKey data.last_signatures w = none) :
    monitor_step data w m = (data, none) := by
  simp [monitor_step, h]

theorem monitor_step_stable (data : UserData) (w m : String)
    (h : (lookupKey data.last_signatures w).isSome = true) :
    monitor_step (monitor_step data w m).1 w m = ((monitor_step data w m).1, none) := by
  obtain ⟨s, hs⟩ := Option.isSome_iff_exists.mp h
  by_cases hc : s ≠ "" ∧ m ≠ s
  · have h1 : monitor_step data w m =
        ({ data with
            last_signatures := insertKey data.last_signatures w m }, some m) := by
      simp [monitor_step, hs, hc]
    rw [h1]
    simp [monitor_step, lookupKey_insertKey_self]
  · have h1 : monitor_step data w m = (data, none) := by
      simp only [monitor_step, hs]
      rw [if_neg hc]
    rw [h1]
    simp only [monitor_step, hs]
    rw [if_neg hc]

/-! ## C2: first observation of a marker for a wallet with unset marker -/

/-- C2 counterexample: for a tracked wallet with no stored signature, the
change-detection step applied to marker `"sigA"` emits no notification but
does NOT record `"sigA"` as the baseline — the stored marker is still
unset afterwards, contradicting the claim that it then equals the
supplied marker. -/
theorem first_sight_baseline_cex :
    lookupKey userNoBaseline.last_signatures "w1" = none ∧
    (monitor_step userNoBaseline "w1" "sigA").2 = none ∧
    lookupKey (monitor_step userNoBaseline "w1" "sigA").1.last_signatures "w1" ≠ some "sigA" := by
  refine ⟨rfl, rfl, ?_⟩
  decide

/-- C2 (amended): for a wallet whose stored last-seen marker is unset, the
change-detection step returns no notification and leaves the state — in
particular the stored marker — entirely unchanged; the baseline is
recorded only by the registration bootstrap in `add_wallet`, never by the
monitor loop. -/
theorem first_sight_no_notification_no_baseline (data : UserData) (w m : String)
    (h : lookupKey data.last_signatures w = none) :
    monitor_step data w m = (data, none) :=
  monitor_step_none_of_no_marker data w m h

/-- C2 witness: the amended theorem applied at the concrete tracked wallet
`"w1"` with no stored signature and observed marker `"sigA"`. -/
theorem first_sight_no_notification_no_baseline_witness :
    lookupKey userNoBaseline.last_signatures "w1" = none ∧
    monitor_step userNoBaseline "w1" "sigA" = (userNoBaseline, none) :=
  ⟨by decide, first_sight_no_notification_no_baseline userNoBaseline "w1" "sigA" (by decide)⟩

/-! ## C5: marker advances before delivery (at-most-once) -/

/-- C5: whenever the change-detection step produces a notification, the
notification carries the observed marker, the stored marker has already
been advanced to it in the state handed on (the source writes
`data['last_signatures'][wallet_address] = latest_signature` before the
`send_message` call, whose `try/except` never touches `user_data`, so the
delivery outcome is not an input of the state transition), and a repeat
observation of the same marker produces no further notification — at most
one notification per marker change even if delivery fails. -/
theorem marker_advances_before_delivery (data : UserData) (w m : String)
    (d1 : UserData) (n : String)
    (h : monitor_step data w m = (d1, some n)) :
    n = m ∧ lookupKey d1.last_signatures w = some m ∧
      monitor_step d1 w m = (d1, none) := by
  cases hs : lookupKey data.last_signatures w with
  | none => simp [monitor_step, hs] at h
  | some s =>
      by_cases hc : s ≠ "" ∧ m ≠ s
      · simp only [monitor_step, hs, if_pos hc, Prod.mk.injEq, Option.some.injEq] at h
        obtain ⟨h1, h2⟩ := h
        subst h1
        subst h2
        refine ⟨rfl, ?_, ?_⟩
        · exact lookupKey_insertKey_self ..
        · simp [monitor_step, lookupKey_insertKey_self]
      · simp only [monitor_step, hs] at h
        rw [if_neg hc] at h
        simp at h

/-- C5 witness: the theorem applied at a wallet with baseline `"sigA"`
observing marker `"sigB"`. -/
theorem marker_advances_before_delivery_witness :
    monitor_step userWithBaseline "w1" "sigB" =
      ((⟨[("w1", "n1")], [("w1", "sigB")]⟩ : UserData), some "sigB") ∧
    ("sigB" = "sigB" ∧
      lookupKey (⟨[("w1", "n1")], [("w1", "sigB")]⟩ : UserData).last_signatures "w1" = some "sigB" ∧
      monitor_step ⟨[("w1", "n1")], [("w1", "sigB")]⟩ "w1" "sigB" =
        (⟨[("w1", "n1")], [("w1", "sigB")]⟩, none)) :=
  ⟨by decide,
    marker_advances_before_delivery userWithBaseline "w1" "sigB" _ "sigB" (by decide)⟩

/-! ## C7: repeated observation of the same marker -/

/-- C7: for a wallet whose stored marker is set, running the
change-detection step twice with the same observed marker yields no event
on the second run and leaves the state unchanged by that second run. -/
theorem try_advance_same_marker_noop (data : UserData) (w m : String)
    (h : (lookupKey data.last_signatures w).isSome = true) :
    monitor_step (monitor_step data w m).1 w m = ((monitor_step data w m).1, none) :=
  monitor_step_stable data w m h

/-- C7 witness: the theorem applied at the wallet with stored marker
`"sigA"` observing `"sigB"` twice. -/
theorem try_advance_same_marker_noop_witness :
    (lookupKey userWithBaseline.last_signatures "w1").isSome = true ∧
    monitor_step (monitor_step userWithBaseline "w1" "sigB").1 "w1" "sigB" =
      ((monitor_step userWithBaseline "w1" "sigB").1, none) :=
  ⟨by decide, try_advance_same_marker_noop userWithBaseline "w1" "sigB" (by decide)⟩

/-! ## C1: persistence of WatchState -/

/-- C1 counterexample: starting from a fresh process with no durable state
file, a registration that succeeds (membership changes: `user_data` is no
longer empty) leaves durable storage untouched — nothing at all is
written, so in particular no serialization of the new state is stored. -/
theorem persistence_cex :
    (add_wallet_proc proc0 1 addrW none ⟨true⟩ ⟨true, ["sig1"]⟩).2 = none ∧
    (add_wallet_proc proc0 1 addrW none ⟨true⟩ ⟨true, ["sig1"]⟩).1.user_data ≠ [] ∧
    (add_wallet_proc proc0 1 addrW none ⟨true⟩ ⟨true, ["sig1"]⟩).1.storage = none := by
  refine ⟨rfl, ?_, rfl⟩
  decide

/-- C1 (amended): the tracked-wallet state is held only in the in-memory
`user_data` map; no mutation (register, unregister, marker advance) writes
durable storage, and process start initializes the state empty without
reading any persisted file. -/
theorem state_is_memory_only (p : ProcState) (u : Int) (a : String) (nm : Option String)
    (br : BalanceResult) (tr : TxFetchResult) (u2 : Int) (a2 : String)
    (u3 : Int) (w m : String) (s : Option String) :
    (add_wallet_proc p u a nm br tr).1.storage = p.storage ∧
    (remove_wallet_proc p u2 a2).1.storage = p.storage ∧
    (monitor_step_proc p u3 w m).1.storage = p.storage ∧
    startup s = ⟨[], s⟩ := by
  refine ⟨rfl, rfl, ?_, rfl⟩
  cases h : lookupKey p.user_data u3 with
  | none => simp [monitor_step_proc, h]
  | some d => simp [monitor_step_proc, h]

/-! ## C9: transactions without balance-change metadata -/

/-- C9: for every transaction record carrying no balance-change metadata
(`meta` absent/falsy), the inference step returns the empty transfer list
for every subject address, instead of raising. -/
theorem infer_empty_on_missing_meta (keys : List AccountKey) (w : String) :
    parse_token_transfers ⟨none, keys⟩ w = [] := rfl

/-! ## C10: address-length validation in add_wallet -/

/-- C10: a registration whose address has length < 32 or > 44 is rejected
with the invalid-address error before any state mutation — the returned
state is the input state, wallets and markers untouched — and before any
liveness check: the outcome is the same for every `balance_result` and
`tx_result`, so no gateway reply is consulted. -/
theorem invalid_length_rejected (st : BotState) (u : Int) (a : String)
    (nm : Option String) (br : BalanceResult) (tr : TxFetchResult)
    (h : a.length < 32 ∨ a.length > 44) :
    add_wallet st u a nm br tr = ⟨st, some .invalidAddress⟩ := by
  unfold add_wallet
  rw [if_pos h]

/-- C10 witness: the theorem applied to the 5-character address
`"short"`, with arbitrary gateway replies. -/
theorem invalid_length_rejected_witness :
    ("short".length < 32 ∨ "short".length > 44) ∧
    add_wallet [] 1 "short" none ⟨true⟩ ⟨true, ["sig1"]⟩ = ⟨[], some .invalidAddress⟩ :=
  ⟨by decide, invalid_length_rejected [] 1 "short" none ⟨true⟩ ⟨true, ["sig1"]⟩ (by decide)⟩

/-! ## C6: token-metadata resolver totality and idempotence -/

theorem resolveChain_allNone (l : List (Option TokenMeta)) (n : ℕ)
    (h : ∀ s ∈ l, s = none) :
    resolveChain l n = (none, n + l.length) := by
  induction l generalizing n with
  | nil => simp [resolveChain]
  | cons hd tl ih =>
      have hhd : hd = none := h hd (by simp)
      subst hhd
      rw [show resolveChain (none :: tl) n = resolveChain tl (n + 1) from rfl,
        ih (n + 1) (fun s hs => h s (by simp [hs]))]
      simp
      omega

/-- C6: the resolver is total by construction (a total Lean function of the
cache and the source replies) and idempotent on unresolvable identifiers:
when the identifier is uncached, is not the special-cased native mint, and
every source fails, the call returns `success = false` with the symbol
synthesized from the identifier's leading and trailing four characters,
and a second call returns the very same record from the cache with zero
further lookup attempts — regardless of what the sources would answer. -/
theorem resolver_idempotent_unresolvable (cache : MetaCache) (mint : String)
    (sources : List (Option TokenMeta))
    (hc : lookupKey cache mint = none) (hn : mint ≠ NATIVE_MINT)
    (hs : ∀ s ∈ sources, s = none) :
    (get_token_metadata cache mint sources).meta.success = false ∧
    (get_token_metadata cache mint sources).meta.symbol = shortenAddr mint ∧
    ∀ sources2, get_token_metadata (get_token_metadata cache mint sources).cache mint sources2 =
      ⟨(get_token_metadata cache mint sources).meta,
        (get_token_metadata cache mint sources).cache, 0⟩ := by
  have h1 : get_token_metadata cache mint sources =
      ⟨⟨false, shortenAddr mint, "Unknown Token", 9⟩,
        insertKey cache mint ⟨false, shortenAddr mint, "Unknown Token", 9⟩,
        sources.length⟩ := by
    simp [get_token_metadata, hc, hn, resolveChain_allNone sources 0 hs]
  rw [h1]
  refine ⟨rfl, rfl, fun sources2 => ?_⟩
  simp [get_token_metadata, lookupKey_insertKey_self]

/-- C6 witness: the theorem applied to an uncached 40-character mint with
two failing sources; the second call is answered from the cache with zero
attempts even though a succeeding source is then available. -/
theorem resolver_idempotent_unresolvable_witness :
    (get_token_metadata [] addrW [none, none]).meta.success = false ∧
    (get_token_metadata [] addrW [none, none]).meta.symbol = shortenAddr addrW ∧
    get_token_metadata (get_token_metadata [] addrW [none, none]).cache addrW
        [some ⟨true, "TOK", "Token", 6⟩] =
      ⟨(get_token_metadata [] addrW [none, none]).meta,
        (get_token_metadata [] addrW [none, none]).cache, 0⟩ := by
  have h := resolver_idempotent_unresolvable [] addrW [none, none]
    (by decide) (by decide) (by decide)
  exact ⟨h.1, h.2.1, h.2.2 [some ⟨true, "TOK", "Token", 6⟩]⟩

/-! ## C8: duplicate registration and unknown unregistration -/

theorem add_wallet_already_tracked (st : BotState) (u : Int) (a : String)
    (nm : Option String) (br : BalanceResult) (tr : TxFetchResult) (d : UserData)
    (hlen : ¬ (a.length < 32 ∨ a.length > 44))
    (hd : lookupKey st u = some d)
    (hw : (lookupKey d.wallets a).isSome = true) :
    add_wallet st u a nm br tr = ⟨st, some .alreadyTracked⟩ := by
  unfold add_wallet
  rw [if_neg hlen]
  simp only [hd, Option.getD_some, hw, if_true]

theorem add_wallet_success_inv (st : BotState) (u : Int) (a : String)
    (nm : Option String) (br : BalanceResult) (tr : TxFetchResult) (st1 : BotState)
    (h : add_wallet st u a nm br tr = ⟨st1, none⟩) :
    ¬ (a.length < 32 ∨ a.length > 44) ∧
    ∃ d : UserData, lookupKey st1 u = some d ∧ (lookupKey d.wallets a).isSome = true := by
  by_cases hlen : a.length < 32 ∨ a.length > 44
  · unfold add_wallet at h
    rw [if_pos hlen] at h
    simp [AddOutcome.mk.injEq] at h
  · refine ⟨hlen, ?_⟩
    unfold add_wallet at h
    rw [if_neg hlen] at h
    cases hmem : lookupKey st u with
    | none =>
        rw [hmem] at h
        simp only [lookupKey_insertKey_self, Option.getD_some] at h
        rw [show lookupKey (⟨[], []⟩ : UserData).wallets a = none from rfl] at h
        simp only [Option.isSome_none, Bool.false_eq_true, if_false] at h
        by_cases hbr : ¬ br.success = true
        · rw [if_pos hbr] at h
          simp [AddOutcome.mk.injEq] at h
        · rw [if_neg hbr] at h
          rw [AddOutcome.mk.injEq] at h
          obtain ⟨h1, -⟩ := h
          subst h1
          refine ⟨_, lookupKey_insertKey_self .., ?_⟩
          rw [lookupKey_insertKey_self]
          rfl
    | some d0 =>
        simp only [hmem, Option.getD_some] at h
        by_cases hw : (lookupKey d0.wallets a).isSome = true
        · rw [if_pos hw] at h
          simp [AddOutcome.mk.injEq] at h
        · rw [if_neg hw] at h
          by_cases hbr : ¬ br.success = true
          · rw [if_pos hbr] at h
            simp [AddOutcome.mk.injEq] at h
          · rw [if_neg hbr] at h
            rw [AddOutcome.mk.injEq] at h
            obtain ⟨h1, -⟩ := h
            subst h1
            refine ⟨_, lookupKey_insertKey_self .., ?_⟩
            rw [lookupKey_insertKey_self]
            rfl

/-- C8: registering the same `(userId, address)` pair a second time after a
successful registration fails with the already-tracked error and leaves
`user_data` — in particular the user's wallet set and markers — unchanged,
for any gateway replies on the second call; and unregistering an address
the user never registered fails with the not-tracked error and leaves the
state unchanged. -/
theorem duplicate_add_and_unknown_remove :
    (∀ (st : BotState) (u : Int) (a : String) (nm : Option String)
      (br : BalanceResult) (tr : TxFetchResult) (st1 : BotState)
      (nm2 : Option String) (br2 : BalanceResult) (tr2 : TxFetchResult),
      add_wallet st u a nm br tr = ⟨st1, none⟩ →
      add_wallet st1 u a nm2 br2 tr2 = ⟨st1, some .alreadyTracked⟩) ∧
    (∀ (st : BotState) (u : Int) (a : String),
      (lookupKey st u).bind (fun d => lookupKey d.wallets a) = none →
      remove_wallet st u a = ⟨st, some .notTracked⟩) := by
  constructor
  · intro st u a nm br tr st1 nm2 br2 tr2 h
    obtain ⟨hlen, d, hd, hw⟩ := add_wallet_success_inv st u a nm br tr st1 h
    exact add_wallet_already_tracked st1 u a nm2 br2 tr2 d hlen hd hw
  · intro st u a h
    cases hmem : lookupKey st u with
    | none => simp [remove_wallet, hmem]
    | some d =>
        rw [hmem, Option.some_bind] at h
        simp [remove_wallet, hmem, h]

/-- C8 witness: a concrete successful registration of `addrW` for user 1,
re-registered with different gateway replies; and an unregistration for a
user with no entry at all. -/
theorem duplicate_add_and_unknown_remove_witness :
    add_wallet (add_wallet [] 1 addrW none ⟨true⟩ ⟨true, ["sig1"]⟩).state 1 addrW
        (some "othername") ⟨false⟩ ⟨false, []⟩ =
      ⟨(add_wallet [] 1 addrW none ⟨true⟩ ⟨true, ["sig1"]⟩).state, some .alreadyTracked⟩ ∧
    remove_wallet [] 5 addrV = ⟨[], some .notTracked⟩ :=
  ⟨duplicate_add_and_unknown_remove.1 [] 1 addrW none ⟨true⟩ ⟨true, ["sig1"]⟩
      (add_wallet [] 1 addrW none ⟨true⟩ ⟨true, ["sig1"]⟩).state
      (some "othername") ⟨false⟩ ⟨false, []⟩ (by decide),
    duplicate_add_and_unknown_remove.2 [] 5 addrV (by decide)⟩

/-! ## C3: the native dust threshold -/

theorem eventForKey_is_sol_false (pre post : List (String × BalEntry)) (w key : String)
    (t : Transfer) (h : eventForKey pre post w key = some t) : t.is_sol = false := by
  unfold eventForKey at h
  split at h
  · simp at h
  · cases hm : mintFor pre post key with
    | none =>
        simp only [hm] at h
        simp at h
    | some m =>
        simp only [hm] at h
        split at h
        · simp at h
        · split at h
          · injection h with h2
            subst h2
            rfl
          · simp at h

theorem token_events_filter_sol (meta : TxMeta) (w : String) :
    (token_events meta w).filter (fun t => t.is_sol) = [] := by
  rw [List.filter_eq_nil_iff]
  intro t ht
  unfold token_events at ht
  obtain ⟨key, -, he⟩ := List.mem_filterMap.mp ht
  simp [eventForKey_is_sol_false _ _ _ _ _ he]

/-- C3 counterexample: in `txDustBoundary` the subject's native delta is
exactly `-0.001` SOL, so its magnitude is ≥ 0.001, yet no native transfer
is produced — the source tests `abs(sol_change) > 0.001` strictly, so the
boundary value is dropped, contradicting the claim's "≥ 0.001 produces
exactly one native event". -/
theorem native_dust_boundary_cex :
    native_delta txDustBoundary "W" = some (-(1 / 1000)) ∧
    |(-(1 / 1000) : ℚ)| ≥ 1 / 1000 ∧
    (parse_token_transfers txDustBoundary "W").filter (fun t => t.is_sol) = [] := by
  refine ⟨?_, ?_, ?_⟩
  · norm_num [native_delta, txDustBoundary, findKeyIdx, addrOf]
  · rw [abs_neg, abs_of_nonneg (by norm_num)]
  · simp [parse_token_transfers, txDustBoundary, token_events, buildBalanceMap,
      unionKeys, keysOf, sol_events, findKeyIdx, addrOf]
    rw [abs_of_nonneg (by norm_num)]
    norm_num

/-- C3 (amended): whenever the subject's native delta is defined, a native
transfer (`is_sol = true`) is produced exactly when its magnitude is
STRICTLY greater than 0.001 SOL — a magnitude of at most 0.001, including
the boundary value itself, produces no native event; above the threshold
exactly one native event is produced, RECEIVE for a positive delta and
SEND for a negative one, with amount the magnitude. -/
theorem native_dust_threshold (tx : TxData) (w : String) (d : ℚ)
    (h : native_delta tx w = some d) :
    (|d| ≤ 1 / 1000 → (parse_token_transfers tx w).filter (fun t => t.is_sol) = []) ∧
    (|d| > 1 / 1000 → (parse_token_transfers tx w).filter (fun t => t.is_sol) =
      [⟨"SOL", d, if d > 0 then "RECEIVE" else "SEND", |d|, some "SOL", true⟩]) := by
  unfold native_delta at h
  cases hm : tx.meta with
  | none =>
      simp only [hm] at h
      exact Option.noConfusion h
  | some meta =>
      simp only [hm] at h
      cases hi : findKeyIdx tx.accountKeys w with
      | none =>
          simp only [hi] at h
          exact Option.noConfusion h
      | some i =>
          simp only [hi] at h
          cases hpre : meta.preBalances.get? i with
          | none =>
              simp only [hpre] at h
              exact Option.noConfusion h
          | some pre =>
              cases hpost : meta.postBalances.get? i with
              | none =>
                  simp only [hpre, hpost] at h
                  exact Option.noConfusion h
              | some post =>
                  simp only [hpre, hpost, Option.some.injEq] at h
                  have hparse : parse_token_transfers tx w =
                      token_events meta w ++ sol_events meta tx.accountKeys w := by
                    unfold parse_token_transfers
                    rw [hm]
                  have hsol : sol_events meta tx.accountKeys w =
                      if |d| > 1 / 1000 then
                        [⟨"SOL", d, if d > 0 then "RECEIVE" else "SEND", |d|, some "SOL", true⟩]
                      else [] := by
                    unfold sol_events
                    simp only [hi, hpre, hpost]
                    subst h
                    rfl
                  constructor
                  · intro hle
                    rw [hparse, List.filter_append, token_events_filter_sol, hsol,
                      if_neg (not_lt.mpr hle)]
                    rfl
                  · intro hgt
                    rw [hparse, List.filter_append, token_events_filter_sol, hsol,
                      if_pos hgt]
                    rfl

/-- C3 witness: the amended theorem applied to `txAboveDust`, whose native
delta is `-0.002` SOL: exactly one native SEND event of 0.002. -/
theorem native_dust_threshold_witness :
    native_delta txAboveDust "W" = some (-(1 / 500)) ∧
    (parse_token_transfers txAboveDust "W").filter (fun t => t.is_sol) =
      [⟨"SOL", -(1 / 500), "SEND", 1 / 500, some "SOL", true⟩] := by
  have hd : native_delta txAboveDust "W" = some (-(1 / 500)) := by
    norm_num [native_delta, txAboveDust, findKeyIdx, addrOf]
  have habs : |(-(1 / 500) : ℚ)| = 1 / 500 := by
    rw [abs_neg, abs_of_nonneg (by norm_num)]
  have h2 := (native_dust_threshold txAboveDust "W" (-(1 / 500)) hd).2
    (by rw [habs]; norm_num)
  refine ⟨hd, ?_⟩
  rw [h2, habs, if_neg (by norm_num)]

/-! ## C4: which keys produce fungible-asset events -/

theorem lookupKey_isSome_iff_mem_keys {κ α : Type} [DecidableEq κ]
    (d : List (κ × α)) (k : κ) :
    (lookupKey d k).isSome = true ↔ k ∈ keysOf d := by
  induction d with
  | nil => simp [lookupKey, keysOf]
  | cons hd tl ih =>
      obtain ⟨k0, v0⟩ := hd
      by_cases h : k0 = k
      · subst h
        simp [lookupKey, keysOf]
      · simp only [lookupKey, if_neg h, ih, keysOf, List.map_cons, List.mem_cons]
        constructor
        · intro hmem
          exact Or.inr hmem
        · rintro (hh | hmem)
          · exact absurd hh.symm h
          · exact hmem

theorem foldl_insertBalance_mint_ne (bals : List TokenBalance)
    (m0 : List (String × BalEntry))
    (h0 : ∀ k e, lookupKey m0 k = some e → e.mint ≠ "") :
    ∀ k e, lookupKey (List.foldl insertBalance m0 bals) k = some e → e.mint ≠ "" := by
  induction bals generalizing m0 with
  | nil => simpa using h0
  | cons b rest ih =>
      rw [List.foldl_cons]
      refine ih (insertBalance m0 b) ?_
      intro k e he
      unfold insertBalance at he
      cases hb : b.owner with
      | none =>
          cases hbm : b.mint with
          | none => simp only [hb, hbm] at he; exact h0 k e he
          | some mint => simp only [hb, hbm] at he; exact h0 k e he
      | some owner =>
          cases hbm : b.mint with
          | none => simp only [hb, hbm] at he; exact h0 k e he
          | some mint =>
              simp only [hb, hbm] at he
              by_cases hc : owner ≠ "" ∧ mint ≠ ""
              · rw [if_pos hc, lookupKey_insertKey] at he
                by_cases hk : k = owner ++ "_" ++ mint
                · rw [if_pos hk, Option.some.injEq] at he
                  subst he
                  exact hc.2
                · rw [if_neg hk] at he
                  exact h0 k e he
              · rw [if_neg hc] at he
                exact h0 k e he

theorem buildBalanceMap_mint_ne (bals : List TokenBalance) (k : String) (e : BalEntry)
    (h : lookupKey (buildBalanceMap bals) k = some e) : e.mint ≠ "" :=
  foldl_insertBalance_mint_ne bals [] (by intro k2 e2 h2; simp [lookupKey] at h2) k e h

theorem mem_unionKeys (pre post : List (String × BalEntry)) (k : String) :
    k ∈ unionKeys pre post ↔ k ∈ keysOf pre ∨ k ∈ keysOf post := by
  simp only [unionKeys, List.mem_append, List.mem_filter]
  constructor
  · rintro (h | ⟨h, -⟩)
    · exact Or.inl h
    · exact Or.inr h
  · rintro (h | h)
    · exact Or.inl h
    · by_cases hp : k ∈ keysOf pre
      · exact Or.inl hp
      · exact Or.inr ⟨h, by simpa using hp⟩

theorem mintFor_of_mem_union (bals1 bals2 : List TokenBalance) (key : String)
    (hk : key ∈ unionKeys (buildBalanceMap bals1) (buildBalanceMap bals2)) :
    mintFor (buildBalanceMap bals1) (buildBalanceMap bals2) key =
      some (keyMint (buildBalanceMap bals1) (buildBalanceMap bals2) key) ∧
    keyMint (buildBalanceMap bals1) (buildBalanceMap bals2) key ≠ "" := by
  have hmf : ∃ m, mintFor (buildBalanceMap bals1) (buildBalanceMap bals2) key = some m ∧
      m ≠ "" := by
    unfold mintFor
    cases hpost : lookupKey (buildBalanceMap bals2) key with
    | some e => exact ⟨e.mint, rfl, buildBalanceMap_mint_ne bals2 key e hpost⟩
    | none =>
        have hmem : key ∈ keysOf (buildBalanceMap bals1) := by
          rcases (mem_unionKeys _ _ key).mp hk with h | h
          · exact h
          · exfalso
            have := (lookupKey_isSome_iff_mem_keys (buildBalanceMap bals2) key).mpr h
            rw [hpost] at this
            simp at this
        obtain ⟨e, he⟩ := Option.isSome_iff_exists.mp
          ((lookupKey_isSome_iff_mem_keys (buildBalanceMap bals1) key).mpr hmem)
        rw [he]
        exact ⟨e.mint, rfl, buildBalanceMap_mint_ne bals1 key e he⟩
  obtain ⟨m, hm, hm0⟩ := hmf
  unfold keyMint
  rw [hm, Option.getD_some]
  exact ⟨rfl, hm0⟩

theorem eventForKey_eq (pre post : List (String × BalEntry)) (w key : String) (m : String)
    (hm : mintFor pre post key = some m) (hm0 : m ≠ "") :
    eventForKey pre post w key =
      if strStartsWith key w = true ∧ keyDelta pre post key ≠ 0 then
        some ⟨m, keyDelta pre post key,
          if keyDelta pre post key > 0 then "BUY" else "SELL",
          |keyDelta pre post key|, none, false⟩
      else none := by
  unfold eventForKey keyDelta
  by_cases h1 : strStartsWith key w = true
  · rw [if_neg (by simp [h1])]
    by_cases h2 : ((lookupKey pre key).map BalEntry.amount).getD 0 =
        ((lookupKey post key).map BalEntry.amount).getD 0
    · simp only [if_pos h2, hm]
      have hz : ((lookupKey post key).map BalEntry.amount).getD 0 -
          ((lookupKey pre key).map BalEntry.amount).getD 0 = 0 :=
        sub_eq_zero_of_eq h2.symm
      rw [if_neg (by simp [hz])]
    · simp only [if_neg h2, hm]
      have hch : ((lookupKey post key).map BalEntry.amount).getD 0 -
          ((lookupKey pre key).map BalEntry.amount).getD 0 ≠ 0 :=
        sub_ne_zero.mpr (fun hh => h2 hh.symm)
      have hcond : strStartsWith key w = true ∧
          ((lookupKey post key).map BalEntry.amount).getD 0 -
            ((lookupKey pre key).map BalEntry.amount).getD 0 ≠ 0 := ⟨h1, hch⟩
      rw [if_pos ⟨hm0, hch⟩, if_pos hcond]
  · rw [if_pos (by simpa using h1)]
    rw [if_neg (by rintro ⟨hh, -⟩; exact h1 hh)]

theorem sol_events_is_sol_true (meta : TxMeta) (keys : List AccountKey) (w : String)
    (t : Transfer) (h : t ∈ sol_events meta keys w) : t.is_sol = true := by
  unfold sol_events at h
  cases hi : findKeyIdx keys w with
  | none =>
      simp only [hi] at h
      simp at h
  | some i =>
      simp only [hi] at h
      cases hpre : meta.preBalances.get? i with
      | none =>
          simp only [hpre] at h
          simp at h
      | some pre =>
          cases hpost : meta.postBalances.get? i with
          | none =>
              simp only [hpre, hpost] at h
              simp at h
          | some post =>
              simp only [hpre, hpost] at h
              split at h
              · rw [List.mem_singleton] at h
                subst h
                rfl
              · simp at h

/-- C4 (amended): the inference step produces a fungible-asset transfer for
exactly those keys in the union of the pre and post maps whose combined
`"owner_mint"` key string STARTS WITH the subject address (the source
tests `key.startswith(wallet_address)`, not owner equality — an owner
having the subject as a proper prefix also produces an event, see the
counterexample) and whose delta (post minus pre, absent side read as 0) is
nonzero; each such event is BUY for a positive delta and SELL for a
negative one, with amount the absolute delta.  Keys whose owner equals the
subject always pass the prefix test, since their key string is
`owner ++ "_" ++ mint`. -/
theorem fungible_events_characterization (meta : TxMeta) (keys : List AccountKey)
    (w : String) (t : Transfer) :
    (parse_token_transfers ⟨some meta, keys⟩ w).filter (fun t2 => ! t2.is_sol) =
      token_events meta w ∧
    (t ∈ token_events meta w ↔
      ∃ key, key ∈ unionKeys (buildBalanceMap meta.preTokenBalances)
          (buildBalanceMap meta.postTokenBalances) ∧
        strStartsWith key w = true ∧
        keyDelta (buildBalanceMap meta.preTokenBalances)
          (buildBalanceMap meta.postTokenBalances) key ≠ 0 ∧
        t = ⟨keyMint (buildBalanceMap meta.preTokenBalances)
              (buildBalanceMap meta.postTokenBalances) key,
            keyDelta (buildBalanceMap meta.preTokenBalances)
              (buildBalanceMap meta.postTokenBalances) key,
            if keyDelta (buildBalanceMap meta.preTokenBalances)
                (buildBalanceMap meta.postTokenBalances) key > 0 then "BUY" else "SELL",
            |keyDelta (buildBalanceMap meta.preTokenBalances)
              (buildBalanceMap meta.postTokenBalances) key|,
            none, false⟩) := by
  constructor
  · rw [show parse_token_transfers ⟨some meta, keys⟩ w =
        token_events meta w ++ sol_events meta keys w from rfl, List.filter_append]
    rw [List.filter_eq_self.mpr
      (fun t2 ht2 => by
        obtain ⟨key, -, he⟩ := List.mem_filterMap.mp ht2
        simp [eventForKey_is_sol_false _ _ _ _ _ he]),
      List.filter_eq_nil_iff.mpr
      (fun t2 ht2 => by simp [sol_events_is_sol_true _ _ _ _ ht2]),
      List.append_nil]
  · unfold token_events
    rw [List.mem_filterMap]
    constructor
    · rintro ⟨key, hk, he⟩
      obtain ⟨hm, hm0⟩ := mintFor_of_mem_union _ _ key hk
      rw [eventForKey_eq _ _ _ _ _ hm hm0] at he
      split at he
      · rename_i hcond
        rw [Option.some.injEq] at he
        exact ⟨key, hk, hcond.1, hcond.2, he.symm⟩
      · exact Option.noConfusion he
    · rintro ⟨key, hk, hsw, hd, ht⟩
      refine ⟨key, hk, ?_⟩
      obtain ⟨hm, hm0⟩ := mintFor_of_mem_union _ _ key hk
      rw [eventForKey_eq _ _ _ _ _ hm hm0, if_pos ⟨hsw, hd⟩, ht]

/-- C4 counterexample: in `txOwnerWX` every token-balance owner is
`"WX"` — no owner equals the subject `"W"` — yet inference for subject
`"W"` produces a BUY event, because the key `"WX_M"` starts with `"W"`.
This contradicts "no event is produced for any key whose owner does not
equal the subject". -/
theorem owner_startswith_leak_cex :
    parse_token_transfers txOwnerWX "W" = [⟨"M", 1, "BUY", 1, none, false⟩] ∧
    (∀ b ∈ metaOwnerWX.preTokenBalances ++ metaOwnerWX.postTokenBalances,
      b.owner ≠ some "W") := by
  constructor
  · have hek : eventForKey [("WX_M", (⟨1, "M", 9⟩ : BalEntry))]
        [("WX_M", (⟨2, "M", 9⟩ : BalEntry))] "W" "WX_M" =
        some ⟨"M", 1, "BUY", 1, none, false⟩ := by
      have hm : mintFor [("WX_M", (⟨1, "M", 9⟩ : BalEntry))]
          [("WX_M", (⟨2, "M", 9⟩ : BalEntry))] "WX_M" = some "M" := rfl
      rw [eventForKey_eq _ _ _ _ _ hm (by decide)]
      have hd1 : keyDelta [("WX_M", (⟨1, "M", 9⟩ : BalEntry))]
          [("WX_M", (⟨2, "M", 9⟩ : BalEntry))] "WX_M" = 1 := by
        have ha : ((lookupKey [("WX_M", (⟨2, "M", 9⟩ : BalEntry))] "WX_M").map
            BalEntry.amount).getD 0 = 2 := rfl
        have hb : ((lookupKey [("WX_M", (⟨1, "M", 9⟩ : BalEntry))] "WX_M").map
            BalEntry.amount).getD 0 = 1 := rfl
        unfold keyDelta
        rw [ha, hb]
        norm_num
      rw [hd1]
      have hcond : strStartsWith "WX_M" "W" = true ∧ (1 : ℚ) ≠ 0 :=
        ⟨by decide, by norm_num⟩
      rw [if_pos hcond]
      norm_num
    show List.filterMap (eventForKey [("WX_M", (⟨1, "M", 9⟩ : BalEntry))]
        [("WX_M", (⟨2, "M", 9⟩ : BalEntry))] "W") ["WX_M"] ++ [] =
      [(⟨"M", 1, "BUY", 1, none, false⟩ : Transfer)]
    rw [List.append_nil]
    simp [List.filterMap_cons, hek]
  · decide

end SolBot
